import Mathlib

/-!
# Verification of `FreeBosonsLieConformalAlgebra.__init__`

Shallow embedding of
`src/sage/algebras/lie_conformal_algebras/free_bosons_lie_conformal_algebra.py`.

The Python constructor

* validates / defaults the `gram_matrix` and `ngens` arguments
  (lines 112-127),
* resolves generator names and an index set via the collaborator
  `standardize_names_index_set` (lines 129-136, not part of this slice),
* builds the structure-constant dictionary `bosondict`
  (lines 137-139),
* delegates to `GradedLieConformalAlgebra.__init__` with
  `central_elements=('K',)` (lines 141-145), and
* stores the Gram matrix in the attribute `_gram_matrix` (line 147).

Modelling choices:

* A Sage matrix over a ring `R` becomes a `Mat R`: explicit row and column
  counts plus a total entry function.  `gram_matrix.dimensions()` is
  `(nrows, ncols)`.
* `gram_matrix in MatrixSpace(R, ngens, ngens)` tests that the matrix has
  shape `ngens x ngens` with entries in `R`; since entries of a `Mat R`
  are in `R` by type, membership reduces to the shape test
  (`matrixSpaceMem`).
* Sage's `Matrix.is_symmetric()` returns `True` exactly when the matrix
  is square and equal to its transpose (`Mat.is_symmetric`).
* The raised `ValueError("the gram_matrix should be a symmetric
  {0} x {0} matrix, got {1}".format(ngens, gram_matrix))` is modelled
  structurally: `InitError.valueError n M` carries the two values
  interpolated into the message, the expected size `n` and the offending
  matrix `M`.
* The Python dict value `{1: {('K', 0): c}}` (a singleton dict of a
  singleton dict) is modelled as the pair `(1, (("K", 0), c))`, and the
  dict `bosondict` keyed by ordered pairs of labels as an association
  list; its keys are pairwise distinct because the index-set labels are.
-/

namespace FreeBosons

/-- A matrix over `R`: `dimensions() = (nrows, ncols)` together with the
entry-access function `M[i, j]`.  Entries outside the declared shape are
never consulted. -/
structure Mat (R : Type) where
  nrows : Nat
  ncols : Nat
  entry : Nat → Nat → R

/-- `identity_matrix(R, n, n)` from `sage.matrix.special`: the `n x n`
matrix with `1` on the diagonal and `0` elsewhere. -/
def identity_matrix (R : Type) [Zero R] [One R] (n : Nat) : Mat R :=
  { nrows := n, ncols := n, entry := fun i j => if i = j then 1 else 0 }

/-- `gram_matrix in MatrixSpace(R, nrows, ncols)`: the shape test (entry
membership in `R` holds by type). -/
def matrixSpaceMem {R : Type} (M : Mat R) (nrows ncols : Nat) : Bool :=
  decide (M.nrows = nrows) && decide (M.ncols = ncols)

/-- Sage's `Matrix.is_symmetric()`: square and equal to its transpose. -/
def Mat.is_symmetric {R : Type} [DecidableEq R] (M : Mat R) : Bool :=
  decide (M.nrows = M.ncols) &&
    (List.range M.nrows).all fun i =>
      (List.range M.ncols).all fun j => decide (M.entry i j = M.entry j i)

/-- The value `{1: {('K', 0): c}}` attached to an ordered pair of
generators: bracket-weight `1` maps the central key `('K', 0)` to the
ring element `c`. -/
abbrev BracketValue (R : Type) := Nat × ((String × Nat) × R)

/-- The dict comprehension of lines 137-139:
`{(i, j): {1: {('K', 0): gram_matrix[rank(i), rank(j)]}}
  for i in index_set for j in index_set}`,
as an association list over the resolved index set. -/
def bosondict {R L : Type} (gram_matrix : Mat R) (index_set : List L)
    (rank : L → Nat) : List ((L × L) × BracketValue R) :=
  index_set.flatMap fun i => index_set.map fun j =>
    ((i, j), (1, (("K", 0), gram_matrix.entry (rank i) (rank j))))

/-- Dict lookup on the association list modelling `bosondict`. -/
def tableLookup {L V : Type} [DecidableEq L] (t : List ((L × L) × V))
    (k : L × L) : Option V :=
  (t.find? fun e => decide (e.1 = k)).map (fun e => e.2)

/-- The `ValueError` raised by `__init__`; it carries the two values
interpolated into the message "the gram_matrix should be a symmetric
{0} x {0} matrix, got {1}": the expected size and the offending
matrix. -/
inductive InitError (R : Type) where
  | valueError (expected : Nat) (got : Mat R)

/-- The state built by a successful `__init__`: the resolved number of
generators, the structure-constant dict passed to the parent
constructor, the `central_elements` tuple passed alongside it, and the
stored attribute `_gram_matrix`. -/
structure FreeBosonsLieConformalAlgebra (R L : Type) where
  ngens : Nat
  bosondict : List ((L × L) × BracketValue R)
  central_elements : List String
  _gram_matrix : Mat R

/-- The accessor `gram_matrix()` (lines 161-173): returns the stored
attribute `self._gram_matrix`. -/
def FreeBosonsLieConformalAlgebra.gram_matrix {R L : Type}
    (self : FreeBosonsLieConformalAlgebra R L) : Mat R :=
  self._gram_matrix

/-- `FreeBosonsLieConformalAlgebra.__init__(R, ngens, gram_matrix, names,
index_set)` (lines 102-147).  The collaborator
`standardize_names_index_set` (from `sage.structure.indexed_generators`,
not in this slice) is modelled from the spec: given the `names` /
`index_set` arguments it returns an index set of `ngens` labels, each
mapped bijectively to an integer rank `0..ngens-1`; here its output is
abstracted into the parameters `stdIdx` (resolved index set for each
generator count) and `rank` (rank of a label). -/
def freeBosonsInit (R : Type) [CommRing R] [DecidableEq R] {L : Type}
    (stdIdx : Nat → List L) (rank : L → Nat)
    (ngens : Option Nat) (gram_matrix : Option (Mat R)) :
    Except (InitError R) (FreeBosonsLieConformalAlgebra R L) :=
  match gram_matrix with
  | some M =>
      let n := ngens.getD M.nrows
      if matrixSpaceMem M n n then
        if M.is_symmetric then
          .ok { ngens := n
                bosondict := bosondict M (stdIdx n) rank
                central_elements := ["K"]
                _gram_matrix := M }
        else .error (.valueError n M)
      else .error (.valueError n M)
  | none =>
      let n := ngens.getD 1
      let M := identity_matrix R n
      .ok { ngens := n
            bosondict := bosondict M (stdIdx n) rank
            central_elements := ["K"]
            _gram_matrix := M }

/-- Modelled from the spec: the default output of
`standardize_names_index_set` — an ordered index set of `ngens` labels
with ranks `0..ngens-1`; labels are identified with their ranks. -/
def standardize_index_set (ngens : Nat) : List Nat :=
  List.range ngens

/-- `freeBosonsInit` at the spec-modelled default index set. -/
def freeBosonsInitDefault (R : Type) [CommRing R] [DecidableEq R]
    (ngens : Option Nat) (gram_matrix : Option (Mat R)) :
    Except (InitError R) (FreeBosonsLieConformalAlgebra R Nat) :=
  freeBosonsInit R standardize_index_set (fun i => i) ngens gram_matrix

/-! ## Helper lemmas about `bosondict` and `freeBosonsInit` -/

theorem mem_bosondict {R L : Type} {M : Mat R} {idx : List L} {rank : L → Nat}
    {e : (L × L) × BracketValue R} (he : e ∈ bosondict M idx rank) :
    e.1.1 ∈ idx ∧ e.1.2 ∈ idx ∧
      e.2 = (1, (("K", 0), M.entry (rank e.1.1) (rank e.1.2))) := by
  simp only [bosondict, List.mem_flatMap, List.mem_map] at he
  obtain ⟨i, hi, j, hj, rfl⟩ := he
  exact ⟨hi, hj, rfl⟩

theorem bosondict_mem_key {R L : Type} (M : Mat R) {idx : List L}
    (rank : L → Nat) {i j : L} (hi : i ∈ idx) (hj : j ∈ idx) :
    ((i, j), (1, (("K", 0), M.entry (rank i) (rank j)))) ∈
      bosondict M idx rank := by
  simp only [bosondict, List.mem_flatMap, List.mem_map]
  exact ⟨i, hi, j, hj, rfl⟩

theorem bosondict_keys {R L : Type} (M : Mat R) (idx : List L)
    (rank : L → Nat) :
    (bosondict M idx rank).map Prod.fst = idx ×ˢ idx := by
  show _ = idx.flatMap fun a => idx.map (Prod.mk a)
  rw [bosondict, List.map_flatMap]
  refine congrArg _ (funext fun a => ?_)
  rw [List.map_map]
  rfl

theorem bosondict_length {R L : Type} (M : Mat R) (idx : List L)
    (rank : L → Nat) :
    (bosondict M idx rank).length = idx.length * idx.length := by
  have h := congrArg List.length (bosondict_keys M idx rank)
  simpa [List.length_product] using h

theorem tableLookup_bosondict {R L : Type} [DecidableEq L] (M : Mat R)
    {idx : List L} (rank : L → Nat) {i j : L} (hi : i ∈ idx) (hj : j ∈ idx) :
    tableLookup (bosondict M idx rank) (i, j) =
      some (1, (("K", 0), M.entry (rank i) (rank j))) := by
  have hsome :
      (List.find? (fun e => decide (e.1 = (i, j)))
        (bosondict M idx rank)).isSome = true := by
    rw [List.find?_isSome]
    exact ⟨_, bosondict_mem_key M rank hi hj, by simp⟩
  obtain ⟨e, he⟩ := Option.isSome_iff_exists.mp hsome
  have hkey : e.1 = (i, j) := by simpa using List.find?_some he
  obtain ⟨_, _, hval⟩ := mem_bosondict (List.mem_of_find?_eq_some he)
  rw [tableLookup, he]
  show some e.2 = _
  rw [hval, hkey]

theorem is_symmetric_iff {R : Type} [DecidableEq R] {M : Mat R} :
    M.is_symmetric = true ↔
      M.nrows = M.ncols ∧
        ∀ i < M.nrows, ∀ j < M.ncols, M.entry i j = M.entry j i := by
  simp [Mat.is_symmetric, List.all_eq_true]

theorem identity_is_symmetric (R : Type) [CommRing R] [DecidableEq R]
    (n : Nat) : (identity_matrix R n).is_symmetric = true := by
  refine is_symmetric_iff.mpr ⟨rfl, fun i _ j _ => ?_⟩
  show (if i = j then (1 : R) else 0) = if j = i then 1 else 0
  by_cases h : i = j
  · subst h; rfl
  · rw [if_neg h, if_neg (fun h' => h h'.symm)]

theorem is_symmetric_entry {R : Type} [DecidableEq R] {M : Mat R}
    (h : M.is_symmetric = true) {i j : Nat}
    (hi : i < M.nrows) (hj : j < M.ncols) :
    M.entry i j = M.entry j i :=
  (is_symmetric_iff.mp h).2 i hi j hj

theorem matrixSpaceMem_iff {R : Type} {M : Mat R} {r c : Nat} :
    matrixSpaceMem M r c = true ↔ M.nrows = r ∧ M.ncols = c := by
  simp [matrixSpaceMem]

theorem freeBosonsInit_ok {R : Type} [CommRing R] [DecidableEq R] {L : Type}
    {stdIdx : Nat → List L} {rank : L → Nat} {ngens : Option Nat}
    {gram_matrix : Option (Mat R)} {A : FreeBosonsLieConformalAlgebra R L}
    (h : freeBosonsInit R stdIdx rank ngens gram_matrix = .ok A) :
    A.bosondict = bosondict A._gram_matrix (stdIdx A.ngens) rank ∧
    A.central_elements = ["K"] ∧
    A._gram_matrix.is_symmetric = true ∧
    A._gram_matrix.nrows = A.ngens ∧ A._gram_matrix.ncols = A.ngens := by
  cases gram_matrix with
  | some M =>
    simp only [freeBosonsInit] at h
    split at h
    · split at h
      · cases h
        rename_i h1 h2
        obtain ⟨hr, hc⟩ := matrixSpaceMem_iff.mp h1
        exact ⟨rfl, rfl, h2, hr, hc⟩
      · exact Except.noConfusion h
    · exact Except.noConfusion h
  | none =>
    simp only [freeBosonsInit] at h
    cases h
    exact ⟨rfl, rfl, identity_is_symmetric R _, rfl, rfl⟩

/-! ## Concrete matrices used in witnesses -/

/-- A concrete symmetric `2 x 2` integer matrix. -/
def wSym : Mat Int :=
  { nrows := 2, ncols := 2, entry := fun i j => (i : Int) + (j : Int) }

/-- The asymmetric matrix `[[0, 1], [-1, 0]]` from the doctests. -/
def wAsym : Mat Int :=
  { nrows := 2, ncols := 2,
    entry := fun i j =>
      if i = 0 ∧ j = 1 then 1 else if i = 1 ∧ j = 0 then -1 else 0 }

/-- The `1 x 1` identity matrix from the dimension-mismatch doctest. -/
def wOne : Mat Int := identity_matrix Int 1

/-! ## Claims -/

/-- C1: for every ring `R`, positive `n`, and symmetric matrix `M`
belonging to the `n x n` matrix space over `R`, `__init__` with
`ngens = n` and `gram_matrix = M` raises no error, and the
`gram_matrix()` accessor of the resulting object returns `M`. -/
theorem gram_matrix_roundtrip (R : Type) [CommRing R] [DecidableEq R]
    {L : Type} (stdIdx : Nat → List L) (rank : L → Nat) (n : Nat)
    (M : Mat R) (_hpos : 0 < n) (hmem : matrixSpaceMem M n n = true)
    (hsym : M.is_symmetric = true) :
    ∃ A, freeBosonsInit R stdIdx rank (some n) (some M) = .ok A ∧
      A.gram_matrix = M := by
  have h : freeBosonsInit R stdIdx rank (some n) (some M) =
      .ok { ngens := n, bosondict := bosondict M (stdIdx n) rank,
            central_elements := ["K"], _gram_matrix := M } := by
    simp [freeBosonsInit, hmem, hsym]
  exact ⟨_, h, rfl⟩

/-- C1 witness at `R = Int`, `n = 2`, `M = wSym`. -/
theorem gram_matrix_roundtrip_witness :
    ∃ A, freeBosonsInit Int standardize_index_set (fun i => i)
        (some 2) (some wSym) = .ok A ∧ A.gram_matrix = wSym :=
  gram_matrix_roundtrip Int standardize_index_set (fun i => i) 2 wSym
    (by decide) (by decide) (by decide)

/-- C2: if `gram_matrix` is omitted, the Gram matrix used is the
`ngens x ngens` identity over the ring; if `ngens` is also omitted,
`ngens` defaults to `1`; and if `gram_matrix` is supplied while `ngens`
is omitted, `ngens` is inferred from the supplied matrix's dimension
(`dimensions()[0]`), both on success and in the reported error. -/
theorem default_resolution (R : Type) [CommRing R] [DecidableEq R]
    {L : Type} (stdIdx : Nat → List L) (rank : L → Nat) :
    (∀ n : Nat, ∃ A, freeBosonsInit R stdIdx rank (some n) none = .ok A ∧
      A.ngens = n ∧ A._gram_matrix = identity_matrix R n) ∧
    (∃ A, freeBosonsInit R stdIdx rank none none = .ok A ∧
      A.ngens = 1 ∧ A._gram_matrix = identity_matrix R 1) ∧
    (∀ M : Mat R,
      (∀ A, freeBosonsInit R stdIdx rank none (some M) = .ok A →
        A.ngens = M.nrows) ∧
      (∀ (k : Nat) (N : Mat R),
        freeBosonsInit R stdIdx rank none (some M) =
          .error (.valueError k N) → k = M.nrows)) := by
  refine ⟨fun n => ⟨_, rfl, rfl, rfl⟩, ⟨_, rfl, rfl, rfl⟩,
    fun M => ⟨?_, ?_⟩⟩
  · intro A h
    simp only [freeBosonsInit, Option.getD_none] at h
    split at h
    · split at h
      · cases h; rfl
      · exact Except.noConfusion h
    · exact Except.noConfusion h
  · intro k N h
    simp only [freeBosonsInit, Option.getD_none] at h
    split at h
    · split at h
      · exact Except.noConfusion h
      · cases h; rfl
    · cases h; rfl

/-- C2 witness: `ngens = 3` with `gram_matrix` omitted, at `R = Int`. -/
theorem default_resolution_witness :
    ∃ A, freeBosonsInit Int standardize_index_set (fun i => i)
        (some 3) none = .ok A ∧
      A.ngens = 3 ∧ A._gram_matrix = identity_matrix Int 3 :=
  (default_resolution Int standardize_index_set (fun i => i)).1 3

/-- C3: whenever the supplied `gram_matrix` is not symmetric, `__init__`
fails with the `ValueError` whose message names the resolved
`ngens x ngens` shape and the offending matrix. -/
theorem asymmetric_fails (R : Type) [CommRing R] [DecidableEq R]
    {L : Type} (stdIdx : Nat → List L) (rank : L → Nat)
    (ngens : Option Nat) (M : Mat R) (hsym : M.is_symmetric = false) :
    freeBosonsInit R stdIdx rank ngens (some M) =
      .error (.valueError (ngens.getD M.nrows) M) := by
  simp [freeBosonsInit, hsym]

/-- C3 witness: the doctest matrix `[[0, 1], [-1, 0]]` with
`ngens = 2`. -/
theorem asymmetric_fails_witness :
    freeBosonsInit Int standardize_index_set (fun i => i)
        (some 2) (some wAsym) = .error (.valueError 2 wAsym) :=
  asymmetric_fails Int standardize_index_set (fun i => i) (some 2) wAsym
    (by decide)

/-- C4: whenever the supplied `gram_matrix` is not a member of the
`ngens x ngens` matrix space over the ring, for an explicitly supplied
`ngens`, `__init__` fails with the `ValueError` reporting the expected
dimension. -/
theorem dimension_mismatch_fails (R : Type) [CommRing R] [DecidableEq R]
    {L : Type} (stdIdx : Nat → List L) (rank : L → Nat) (n : Nat)
    (M : Mat R) (hmem : matrixSpaceMem M n n = false) :
    freeBosonsInit R stdIdx rank (some n) (some M) =
      .error (.valueError n M) := by
  simp [freeBosonsInit, hmem]

/-- C4 witness: the doctest `1 x 1` identity supplied with
`ngens = 2`. -/
theorem dimension_mismatch_fails_witness :
    freeBosonsInit Int standardize_index_set (fun i => i)
        (some 2) (some wOne) = .error (.valueError 2 wOne) :=
  dimension_mismatch_fails Int standardize_index_set (fun i => i) 2 wOne
    (by decide)

/-- The object built by the all-defaults construction over `Int`
(`ngens` resolved to `1`, `gram_matrix` to the `1 x 1` identity). -/
def wDefaultAlgebra : FreeBosonsLieConformalAlgebra Int Nat :=
  { ngens := 1
    bosondict := bosondict (identity_matrix Int 1) (standardize_index_set 1)
      (fun i => i)
    central_elements := ["K"]
    _gram_matrix := identity_matrix Int 1 }

/-- The object built from `ngens = 2`, `gram_matrix = wSym` over `Int`. -/
def wSymAlgebra : FreeBosonsLieConformalAlgebra Int Nat :=
  { ngens := 2
    bosondict := bosondict wSym (standardize_index_set 2) (fun i => i)
    central_elements := ["K"]
    _gram_matrix := wSym }

theorem wSymAlgebra_built :
    freeBosonsInit Int standardize_index_set (fun i => i) (some 2)
      (some wSym) = .ok wSymAlgebra := by
  have h1 : matrixSpaceMem wSym 2 2 = true := by decide
  have h2 : wSym.is_symmetric = true := by decide
  simp [freeBosonsInit, h1, h2, wSymAlgebra]

/-- C5: for every successful construction with resolved index set of
size `n` and Gram matrix `M`, the structure-constant table has exactly
`n * n` entries, its keys are exactly the ordered pairs of index-set
labels (each pair once, diagonal included), and the entry for `(i, j)`
maps bracket-weight `1` to the key `("K", 0)` with value
`M[rank i, rank j]`. -/
theorem table_entries (R : Type) [CommRing R] [DecidableEq R]
    {L : Type} [DecidableEq L] (stdIdx : Nat → List L) (rank : L → Nat)
    (ngens : Option Nat) (gram_matrix : Option (Mat R))
    (A : FreeBosonsLieConformalAlgebra R L)
    (h : freeBosonsInit R stdIdx rank ngens gram_matrix = .ok A)
    (hlen : (stdIdx A.ngens).length = A.ngens)
    (hnd : (stdIdx A.ngens).Nodup) :
    A.bosondict.length = A.ngens * A.ngens ∧
    A.bosondict.map Prod.fst = (stdIdx A.ngens) ×ˢ (stdIdx A.ngens) ∧
    (A.bosondict.map Prod.fst).Nodup ∧
    ∀ i ∈ stdIdx A.ngens, ∀ j ∈ stdIdx A.ngens,
      tableLookup A.bosondict (i, j) =
        some (1, (("K", 0), A._gram_matrix.entry (rank i) (rank j))) := by
  obtain ⟨hb, -, -, -, -⟩ := freeBosonsInit_ok h
  rw [hb]
  refine ⟨?_, bosondict_keys _ _ _, ?_,
    fun i hi j hj => tableLookup_bosondict _ rank hi hj⟩
  · rw [bosondict_length, hlen]
  · rw [bosondict_keys]
    exact hnd.product hnd

/-- C5 witness: the all-defaults construction over `Int`. -/
theorem table_entries_witness :
    wDefaultAlgebra.bosondict.length =
      wDefaultAlgebra.ngens * wDefaultAlgebra.ngens ∧
    tableLookup wDefaultAlgebra.bosondict (0, 0) =
      some (1, (("K", 0), (1 : Int))) := by
  have h := table_entries Int standardize_index_set (fun i => i) none none
    wDefaultAlgebra rfl (by decide) (by decide)
  exact ⟨h.1, h.2.2.2 0 (by decide) 0 (by decide)⟩

/-- C6: for every successful construction, the structure-constant table
is symmetric: the entry for `(i, j)` equals the entry for `(j, i)` for
all pairs of index-set labels. -/
theorem table_symmetric (R : Type) [CommRing R] [DecidableEq R]
    {L : Type} [DecidableEq L] (stdIdx : Nat → List L) (rank : L → Nat)
    (ngens : Option Nat) (gram_matrix : Option (Mat R))
    (A : FreeBosonsLieConformalAlgebra R L)
    (h : freeBosonsInit R stdIdx rank ngens gram_matrix = .ok A)
    (hrank : ∀ l ∈ stdIdx A.ngens, rank l < A.ngens) :
    ∀ i ∈ stdIdx A.ngens, ∀ j ∈ stdIdx A.ngens,
      tableLookup A.bosondict (i, j) = tableLookup A.bosondict (j, i) := by
  obtain ⟨hb, -, hsym, hr, hc⟩ := freeBosonsInit_ok h
  intro i hi j hj
  rw [hb, tableLookup_bosondict _ rank hi hj,
    tableLookup_bosondict _ rank hj hi]
  have he : A._gram_matrix.entry (rank i) (rank j) =
      A._gram_matrix.entry (rank j) (rank i) :=
    is_symmetric_entry hsym (by rw [hr]; exact hrank i hi)
      (by rw [hc]; exact hrank j hj)
  rw [he]

/-- C6 witness: the off-diagonal entries of the `wSym` construction. -/
theorem table_symmetric_witness :
    tableLookup wSymAlgebra.bosondict (0, 1) =
      tableLookup wSymAlgebra.bosondict (1, 0) :=
  table_symmetric Int standardize_index_set (fun i => i) (some 2)
    (some wSym) wSymAlgebra wSymAlgebra_built (by decide) 0 (by decide) 1
    (by decide)

/-- C7: construction is a deterministic function of its inputs: two runs
with equal inputs return equal results — in particular equal
structure-constant tables and equal stored Gram matrices. -/
theorem construction_deterministic (R : Type) [CommRing R] [DecidableEq R]
    {L : Type} (stdIdx₁ stdIdx₂ : Nat → List L) (rank₁ rank₂ : L → Nat)
    (ngens₁ ngens₂ : Option Nat) (gram₁ gram₂ : Option (Mat R))
    (hs : stdIdx₁ = stdIdx₂) (hr : rank₁ = rank₂)
    (hn : ngens₁ = ngens₂) (hg : gram₁ = gram₂) :
    freeBosonsInit R stdIdx₁ rank₁ ngens₁ gram₁ =
      freeBosonsInit R stdIdx₂ rank₂ ngens₂ gram₂ ∧
    ∀ A₁ A₂, freeBosonsInit R stdIdx₁ rank₁ ngens₁ gram₁ = .ok A₁ →
      freeBosonsInit R stdIdx₂ rank₂ ngens₂ gram₂ = .ok A₂ →
      A₁.bosondict = A₂.bosondict ∧ A₁._gram_matrix = A₂._gram_matrix := by
  subst hs; subst hr; subst hn; subst hg
  refine ⟨rfl, fun A₁ A₂ h₁ h₂ => ?_⟩
  rw [h₁] at h₂
  cases h₂
  exact ⟨rfl, rfl⟩

/-- C7 witness: two equal-input runs over `Int`. -/
theorem construction_deterministic_witness :
    freeBosonsInit Int standardize_index_set (fun i => i) (some 2) none =
      freeBosonsInit Int standardize_index_set (fun i => i) (some 2)
        none :=
  (construction_deterministic Int standardize_index_set
    standardize_index_set (fun i => i) (fun i => i) (some 2) (some 2)
    none none rfl rfl rfl rfl).1

/-- C8: the Gram matrix is fixed at construction time: the
`gram_matrix()` accessor of a constructed object returns exactly the
matrix resolved (supplied or defaulted) during construction, and every
operation of the embedded class is a pure function of the object, so
nothing changes the stored matrix or table afterwards. -/
theorem gram_matrix_immutable (R : Type) [CommRing R] [DecidableEq R]
    {L : Type} (stdIdx : Nat → List L) (rank : L → Nat)
    (ngens : Option Nat) (gram_matrix : Option (Mat R))
    (A : FreeBosonsLieConformalAlgebra R L)
    (h : freeBosonsInit R stdIdx rank ngens gram_matrix = .ok A) :
    (∀ M, gram_matrix = some M → A.gram_matrix = M) ∧
    (gram_matrix = none →
      A.gram_matrix = identity_matrix R (ngens.getD 1)) := by
  constructor
  · rintro M rfl
    simp only [freeBosonsInit] at h
    split at h
    · split at h
      · cases h; rfl
      · exact Except.noConfusion h
    · exact Except.noConfusion h
  · rintro rfl
    simp only [freeBosonsInit] at h
    cases h
    rfl

/-- C8 witness: the accessor on the `wSym` construction. -/
theorem gram_matrix_immutable_witness :
    wSymAlgebra.gram_matrix = wSym :=
  (gram_matrix_immutable Int standardize_index_set (fun i => i) (some 2)
    (some wSym) wSymAlgebra wSymAlgebra_built).1 wSym rfl

/-- C9: the positivity of `ngens` is never checked: an explicit
`ngens = 0` with `gram_matrix` omitted raises no error; the construction
proceeds with the `0 x 0` identity Gram matrix and an empty
structure-constant table. -/
theorem ngens_zero_ok (R : Type) [CommRing R] [DecidableEq R]
    {L : Type} (stdIdx : Nat → List L) (rank : L → Nat)
    (h0 : stdIdx 0 = []) :
    ∃ A, freeBosonsInit R stdIdx rank (some 0) none = .ok A ∧
      A.ngens = 0 ∧ A._gram_matrix = identity_matrix R 0 ∧
      A.bosondict = [] := by
  refine ⟨_, rfl, rfl, rfl, ?_⟩
  show bosondict (identity_matrix R 0) (stdIdx 0) rank = []
  rw [h0]
  rfl

/-- C9 witness: `ngens = 0` at the default index set over `Int`. -/
theorem ngens_zero_ok_witness :
    ∃ A, freeBosonsInit Int standardize_index_set (fun i => i)
        (some 0) none = .ok A ∧
      A.ngens = 0 ∧ A._gram_matrix = identity_matrix Int 0 ∧
      A.bosondict = [] :=
  ngens_zero_ok Int standardize_index_set (fun i => i) rfl

/-- C10: regardless of the supplied names or index set, the central
label is the hard-coded `"K"`: every value in the structure-constant
table is keyed by `("K", 0)`, and the `central_elements` tuple passed to
the parent constructor is exactly `("K",)`. -/
theorem central_label_K (R : Type) [CommRing R] [DecidableEq R] :
    (∀ (L : Type) (index_set : List L) (rank : L → Nat) (M : Mat R)
      (e : (L × L) × BracketValue R), e ∈ bosondict M index_set rank →
      e.2.2.1 = ("K", 0)) ∧
    (∀ (L : Type) (stdIdx : Nat → List L) (rank : L → Nat)
      (ngens : Option Nat) (gram_matrix : Option (Mat R))
      (A : FreeBosonsLieConformalAlgebra R L),
      freeBosonsInit R stdIdx rank ngens gram_matrix = .ok A →
      A.central_elements = ["K"]) := by
  constructor
  · intro L idx rank M e he
    rw [(mem_bosondict he).2.2]
  · intro L stdIdx rank ngens gram A h
    exact (freeBosonsInit_ok h).2.1

/-- C10 witness: the unique table entry and the central-element tuple of
the all-defaults construction over `Int`. -/
theorem central_label_K_witness :
    (((0, 0), (1, (("K", 0), (1 : Int)))) :
      (Nat × Nat) × BracketValue Int).2.2.1 = ("K", 0) ∧
    wDefaultAlgebra.central_elements = ["K"] :=
  ⟨(central_label_K Int).1 Nat (standardize_index_set 1) (fun i => i)
      (identity_matrix Int 1) _ (by decide),
   (central_label_K Int).2 Nat standardize_index_set (fun i => i)
      none none wDefaultAlgebra rfl⟩

end FreeBosons
